import Mathlib

/-!
Verification of the tombstone (native-crash) parser of the dumpstate-py
repository (src/dumpstate/vm_traces/tombstones.py), via a shallow embedding.

Lines of the input byte stream are modelled as lists of characters
(the input is the newline-split line sequence that the helper module hands
to the function; lines therefore contain no newline characters).  The byte
regular expressions of the source are translated into deterministic or
explicitly backtracking matching functions over these character lists,
following Python re semantics (leftmost match, greedy and lazy repetition
with backtracking).  Decoding with replacement is the identity on this
character model.
-/

/-- ASCII whitespace, the character class of the byte-level strip and of
the regex class used by the source patterns. -/
def isPySpace (c : Char) : Bool :=
  c = ' ' || c = '\t' || c = '\n' || c = '\r' ||
  c = Char.ofNat 11 || c = Char.ofNat 12

/-- Hexadecimal digit class of the source patterns. -/
def isHexDigitB (c : Char) : Bool :=
  c.isDigit || (97 ≤ c.toNat && c.toNat ≤ 102) || (65 ≤ c.toNat && c.toNat ≤ 70)

/-- Python bytes.strip(): remove ASCII whitespace at both ends. -/
def stripB (s : List Char) : List Char :=
  ((s.dropWhile isPySpace).reverse.dropWhile isPySpace).reverse

/-- Python bytes.startswith on this model. -/
def startsWithB : List Char → List Char → Bool
  | [], _ => true
  | _ :: _, [] => false
  | a :: as', b :: bs => a == b && startsWithB as' bs

/-- Substring containment, the semantics of regex search for a literal
pattern (the record-start anchor). -/
def containsSeqB (pat : List Char) : List Char → Bool
  | [] => startsWithB pat []
  | c :: rest => startsWithB pat (c :: rest) || containsSeqB pat rest

/-- Consume a literal token from the head of the input. -/
def dropTok (pat s : List Char) : Option (List Char) :=
  if startsWithB pat s then some (s.drop pat.length) else none

/-- Greedy one-or-more repetition of a character class.  Used for the
source regex pieces where the class is disjoint from what follows, so
greedy matching is deterministic. -/
def many1 (p : Char → Bool) (s : List Char) : Option (List Char × List Char) :=
  let t := s.takeWhile p
  if t.isEmpty then none else some (t, s.drop t.length)

/-- Consume exactly two decimal digits. -/
def takeDigit2 : List Char → Option (List Char)
  | a :: b :: rest => if a.isDigit && b.isDigit then some rest else none
  | _ => none

/-- All splits of the input at an occurrence of a literal pattern, as
(part before, part after the pattern), in increasing position order.
This drives the backtracking of the lazy regex groups of the source. -/
def occSplits (pat : List Char) : List Char → List (List Char × List Char)
  | [] => if startsWithB pat [] then [([], [])] else []
  | c :: rest =>
    let tail := (occSplits pat rest).map (fun p => (c :: p.1, p.2))
    if startsWithB pat (c :: rest) then
      ([], (c :: rest).drop pat.length) :: tail
    else tail

/-- Candidate matches of a lazy one-or-more group followed by a literal
delimiter, in the order Python re backtracking tries them. -/
def lazyPlus (pat s : List Char) : List (List Char × List Char) :=
  (occSplits pat s).filter (fun p => !p.1.isEmpty)

/-- Numeric value of a run of decimal digits (Python int on a digit
group captured by a regex). -/
def digitsVal (l : List Char) : Nat :=
  l.foldl (fun a c => a * 10 + (c.toNat - 48)) 0

/-- Digit tail of a Python int literal: digits with single underscores
allowed between digits. -/
def pyDigitsGo : Nat → List Char → Option Nat
  | acc, [] => some acc
  | acc, '_' :: c :: rest =>
    if c.isDigit then pyDigitsGo (acc * 10 + (c.toNat - 48)) rest else none
  | acc, c :: rest =>
    if c.isDigit then pyDigitsGo (acc * 10 + (c.toNat - 48)) rest else none

/-- Nonempty digit sequence of a Python int literal. -/
def pyDigitsCore : List Char → Option Nat
  | [] => none
  | c :: rest =>
    if c.isDigit then pyDigitsGo (c.toNat - 48) rest else none

/-- Python int() on an already-stripped byte string: optional sign then
digits; returns none exactly when int() raises ValueError. -/
def pyInt : List Char → Option Int
  | '+' :: rest => (pyDigitsCore rest).map Int.ofNat
  | '-' :: rest => (pyDigitsCore rest).map (fun n => -(Int.ofNat n))
  | s => (pyDigitsCore s).map Int.ofNat

/-- Part after the first occurrence of a separator: Python
split(sep, 1)[1], defined when the separator occurs (the source always
guards with startswith). -/
def afterFirstOcc (pat s : List Char) : List Char :=
  match occSplits pat s with
  | [] => []
  | p :: _ => p.2

/-- The record-start anchor literal of the source pattern. -/
def anchorLit : List Char :=
  "*** *** *** *** *** *** *** *** *** *** *** *** *** *** *** ***".data

/-- Consume one or more characters of a class (the remainder only). -/
def skip1 (p : Char → Bool) (s : List Char) : Option (List Char) :=
  (many1 p s).map (fun r => r.2)

/-- Logcat wrapper pattern, date/time part: two digits, a dash, two
digits, whitespace, then hh:mm:ss. -/
def lgDate (s : List Char) : Option (List Char) := do
  let s ← takeDigit2 s
  let s ← dropTok ("-".data) s
  let s ← takeDigit2 s
  let s ← skip1 isPySpace s
  let s ← takeDigit2 s
  let s ← dropTok (":".data) s
  some s

/-- Logcat wrapper pattern, rest of the time: mm:ss then a dot and a
fractional digit run, then whitespace. -/
def lgTime (s : List Char) : Option (List Char) := do
  let s ← takeDigit2 s
  let s ← dropTok (":".data) s
  let s ← takeDigit2 s
  let s ← dropTok (".".data) s
  let s ← skip1 Char.isDigit s
  let s ← skip1 isPySpace s
  some s

/-- Logcat wrapper pattern, the three numeric id fields, each digits then
whitespace. -/
def lgIds (s : List Char) : Option (List Char) := do
  let s ← skip1 Char.isDigit s
  let s ← skip1 isPySpace s
  let s ← skip1 Char.isDigit s
  let s ← skip1 isPySpace s
  let s ← skip1 Char.isDigit s
  let s ← skip1 isPySpace s
  some s

/-- Logcat wrapper pattern, the severity tag, the DEBUG literal, the
colon (after optional whitespace) and one optional whitespace character;
what remains is the captured content group. -/
def lgTag (s : List Char) : Option (List Char) := do
  let s ← dropTok ("F".data) s
  let s ← skip1 isPySpace s
  let s ← dropTok ("DEBUG".data) s
  let s ← dropTok (":".data) (s.dropWhile isPySpace)
  some (match s with
    | c :: rest => if isPySpace c then rest else c :: rest
    | [] => [])

/-- The logcat wrapper pattern of the source, as an anchored match on the
stripped line: on success, group 1 (content after the prefix). -/
def logcatStrip (s : List Char) : Option (List Char) := do
  let s ← lgDate s
  let s ← lgTime s
  let s ← lgIds s
  let s ← lgTag s
  some s

/-- Groups captured by the pid/tid/name line pattern. -/
structure PidGroups where
  pid : Nat
  tid : Nat
  name : List Char
  pname : List Char
deriving DecidableEq

/-- The pid/tid/name pattern of the source, anchored at line start, with
the backtracking of its two lazy groups. -/
def pidTidMatch (s : List Char) : Option PidGroups := do
  let s ← dropTok ("pid: ".data) s
  let (g1, s) ← many1 Char.isDigit s
  let s ← dropTok (", tid: ".data) s
  let (g2, s) ← many1 Char.isDigit s
  let s ← dropTok (", name: ".data) s
  (lazyPlus ("  >>> ".data) s).findSome? fun p =>
    (lazyPlus (" <<<".data) p.2).findSome? fun q =>
      some ⟨digitsVal g1, digitsVal g2, p.1, q.1⟩

/-- Groups captured by the signal line pattern. -/
structure SigGroups where
  sg : List Char
  cd : List Char
  fa : List Char
deriving DecidableEq

/-- The signal pattern of the source, anchored at line start, with its
lazy-group backtracking; group 3 keeps its hex-address prefix. -/
def signalMatch (s : List Char) : Option SigGroups := do
  let s ← dropTok ("signal ".data) s
  let (_, s) ← many1 Char.isDigit s
  let s ← dropTok (" (".data) s
  (lazyPlus ("), code ".data) s).findSome? fun p => do
    let (_, r) ← many1 Char.isDigit p.2
    let r ← dropTok (" (".data) r
    (lazyPlus ("), fault addr ".data) r).findSome? fun q => do
      let r2 ← dropTok ("0x".data) q.2
      let (hex, _) ← many1 isHexDigitB r2
      some ⟨p.1, q.1, ("0x".data) ++ hex⟩

/-- Groups captured by the backtrace frame pattern. -/
structure BtGroups where
  idx : Nat
  pc : List Char
  lib : List Char
  fn : Option (List Char)
  bid : Option (List Char)
deriving DecidableEq

/-- Optional parenthesized function group of the frame pattern: some
whitespace, an opening parenthesis, then a lazy group ending at the first
closing parenthesis. -/
def btOptFn (s : List Char) : Option (List Char × List Char) := do
  let (_, t) ← many1 isPySpace s
  let t ← dropTok ("(".data) t
  (occSplits (")".data) t).head?

/-- Optional BuildId group of the frame pattern. -/
def btOptBid (s : List Char) : Option (List Char × List Char) := do
  let (_, t) ← many1 isPySpace s
  let t ← dropTok ("(BuildId:".data) t
  let (_, t) ← many1 isPySpace t
  (occSplits (")".data) t).head?

/-- Mandatory head of the frame pattern: the hash, the digit group, the
pc literal; captures the frame-index digits. -/
def btHead (s : List Char) : Option (List Char × List Char) := do
  let s ← dropTok ("#".data) s
  let (g1, s) ← many1 Char.isDigit s
  let s ← skip1 isPySpace s
  let s ← dropTok ("pc".data) s
  let s ← skip1 isPySpace s
  some (g1, s)

/-- Middle of the frame pattern: the hex pc group, whitespace, then the
non-whitespace library group. -/
def btMid (s : List Char) : Option (List Char × List Char × List Char) := do
  let (g2, s) ← many1 isHexDigitB s
  let s ← skip1 isPySpace s
  let (g3, s) ← many1 (fun c => !isPySpace c) s
  some (g2, g3, s)

/-- The frame pattern tried at one start position. -/
def btMatchAt (s : List Char) : Option BtGroups := do
  let (g1, s) ← btHead s
  let (g2, g3, s) ← btMid s
  let (g4, s1) := match btOptFn s with
    | some p => (some p.1, p.2)
    | none => (none, s)
  let g5 := match btOptBid s1 with
    | some p => some p.1
    | none => none
  some ⟨digitsVal g1, g2, g3, g4, g5⟩

/-- The frame pattern as a search: first start position, scanned left to
right, at which it matches. -/
def btSearch : List Char → Option BtGroups
  | [] => none
  | c :: rest =>
    match btMatchAt (c :: rest) with
    | some g => some g
    | none => btSearch rest

/-- One line of a native backtrace, parsed or raw. -/
structure BacktraceFrame where
  frame : Int
  pc : List Char
  library : List Char
  function : Option (List Char) := none
  offset : Option (List Char) := none
  build_id : Option (List Char) := none
  raw_line : List Char := []
deriving DecidableEq

/-- One tombstone (native crash) entry. -/
structure Tombstone where
  timestamp : List Char := []
  pid : Int := 0
  tid : Int := 0
  uid : Int := 0
  process_name : List Char := []
  thread_name : List Char := []
  cmdline : List Char := []
  build_fingerprint : List Char := []
  abi : List Char := []
  signal : List Char := []
  code : List Char := []
  fault_addr : List Char := []
  abort_message : List Char := []
  backtrace : List BacktraceFrame := []
deriving DecidableEq

/-- The freshly opened record of the source (all fields defaulted). -/
def emptyTombstone : Tombstone := {}

/-- Python rsplit on a plus sign with maxsplit 1: part before the last
plus, and the part after it when one exists. -/
def rsplitPlusOnce (f : List Char) : List Char × Option (List Char) :=
  let r := f.reverse
  let post := r.takeWhile (fun c => c != '+')
  if post.length = r.length then (f, none)
  else ((r.drop (post.length + 1)).reverse, some post.reverse)

/-- Function/offset extraction of the source: the captured group is
truthiness-tested (absent or empty yields neither), then rsplit once from
the right on a plus sign. -/
def splitFnOffset : Option (List Char) → Option (List Char) × Option (List Char)
  | none => (none, none)
  | some f =>
    if f.isEmpty then (none, none)
    else
      let p := rsplitPlusOnce f
      (some p.1, p.2)

/-- Truthiness normalisation of an optional captured group: an empty
capture behaves like an absent one in the source. -/
def normOpt : Option (List Char) → Option (List Char)
  | some [] => none
  | x => x

/-- The parsed frame the source builds from the matched groups. -/
def mkParsedFrame (g : BtGroups) (content : List Char) : BacktraceFrame :=
  let fo := splitFnOffset g.fn
  { frame := Int.ofNat g.idx, pc := g.pc, library := g.lib,
    function := fo.1, offset := fo.2, build_id := normOpt g.bid,
    raw_line := content }

/-- The value stored by the uid branch: the text between the first and
second colon of the line (Python split on colon, index 1). -/
def uidFieldText (content : List Char) : List Char :=
  (afterFirstOcc (":".data) content).takeWhile (fun c => c != ':')

/-- The tail of the per-line body of the source: the two combined-line
patterns when outside the backtrace section, the backtrace section logic
when inside it. -/
def afterFields (cur : Tombstone) (inBt : Bool) (content : List Char) :
    Tombstone × Bool :=
  if !inBt then
    match pidTidMatch content with
    | some g =>
      ({ cur with pid := Int.ofNat g.pid, tid := Int.ofNat g.tid,
                  thread_name := stripB g.name,
                  process_name := stripB g.pname }, inBt)
    | none =>
      match signalMatch content with
      | some g => ({ cur with signal := g.sg, code := g.cd, fault_addr := g.fa }, inBt)
      | none => (cur, inBt)
  else
    match btSearch content with
    | some g => ({ cur with backtrace := cur.backtrace ++ [mkParsedFrame g content] }, true)
    | none =>
      if startsWithB ("stack:".data) content then (cur, false)
      else if !(stripB content).isEmpty then
        ({ cur with backtrace := cur.backtrace ++
            [{ frame := -1, pc := [], library := [], raw_line := content }] }, true)
      else (cur, true)

/-- The field-label chain and subsequent handling of one content line of
an open record: mirrors the source body from the label tests onward.
Returns the updated record and backtrace flag, or an error when the
unchecked integer conversion of the uid branch raises. -/
def handleContent (cur : Tombstone) (inBt : Bool) (content : List Char) :
    Except Unit (Tombstone × Bool) :=
  if startsWithB ("Timestamp:".data) content then
    .ok (afterFields { cur with
      timestamp := stripB (afterFirstOcc ("Timestamp:".data) content) } inBt content)
  else if startsWithB ("Build fingerprint:".data) content then
    .ok (afterFields { cur with
      build_fingerprint := stripB (afterFirstOcc (":".data) content) } inBt content)
  else if startsWithB ("ABI:".data) content then
    .ok (afterFields { cur with
      abi := stripB (afterFirstOcc (":".data) content) } inBt content)
  else if startsWithB ("Cmdline:".data) content then
    .ok (afterFields { cur with
      cmdline := stripB (afterFirstOcc (":".data) content) } inBt content)
  else if startsWithB ("uid:".data) content then
    match pyInt (stripB (uidFieldText content)) with
    | some v => .ok (afterFields { cur with uid := v } inBt content)
    | none => .error ()
  else if startsWithB ("Abort message:".data) content then
    .ok (afterFields { cur with
      abort_message := stripB (afterFirstOcc (":".data) content) } inBt content)
  else if startsWithB ("backtrace:".data) content then
    .ok (cur, true)
  else
    .ok (afterFields cur inBt content)

/-- Scanner state of the source loop. -/
structure ParseState where
  tombstones : List Tombstone
  current : Option Tombstone
  in_backtrace : Bool
  parsing_logcat : Bool
deriving DecidableEq

/-- Strip one raw line and detect/remove the logcat wrapper: the content
the source works with and whether the line carried the wrapper. -/
def wrapSplit (line : List Char) : List Char × Bool :=
  let ls := stripB line
  match logcatStrip ls with
  | some rest => (stripB rest, true)
  | none => (ls, false)

/-- The wrapper-stripped content of a line. -/
def lineContent (line : List Char) : List Char := (wrapSplit line).1

/-- Whether a line (after wrapper stripping) contains the record-start
anchor. -/
def isAnchorLine (line : List Char) : Bool :=
  containsSeqB anchorLit (lineContent line)

/-- One iteration of the source loop. -/
def processLine (st : ParseState) (line : List Char) : Except Unit ParseState :=
  let content := (wrapSplit line).1
  let isLogcat := (wrapSplit line).2
  if containsSeqB anchorLit content then
    .ok { tombstones := st.tombstones ++ st.current.toList,
          current := some emptyTombstone,
          in_backtrace := false, parsing_logcat := isLogcat }
  else
    match st.current with
    | none => .ok st
    | some cur =>
      if st.parsing_logcat && !isLogcat then
        .ok { tombstones := st.tombstones ++ [cur], current := none,
              in_backtrace := false, parsing_logcat := false }
      else
        match handleContent cur st.in_backtrace content with
        | .error e => .error e
        | .ok r =>
          .ok { tombstones := st.tombstones, current := some r.1,
                in_backtrace := r.2, parsing_logcat := st.parsing_logcat }

/-- The source loop over all input lines. -/
def runLines : ParseState → List (List Char) → Except Unit ParseState
  | st, [] => .ok st
  | st, l :: ls =>
    match processLine st l with
    | .error e => .error e
    | .ok st' => runLines st' ls

/-- End-of-input flush and the empty-result signal of the source. -/
def finalize (st : ParseState) : Option (List Tombstone) :=
  let ts := st.tombstones ++ st.current.toList
  if ts.isEmpty then none else some ts

/-- parse_tombstones of the source: the input is its line sequence; an
error is a raised exception, ok none the explicit no-records result. -/
def parse_tombstones (lines : List (List Char)) :
    Except Unit (Option (List Tombstone)) :=
  (runLines ⟨[], none, false, false⟩ lines).map finalize

instance {α β : Type} [DecidableEq α] [DecidableEq β] : DecidableEq (Except α β) :=
  fun a b =>
  match a, b with
  | .error x, .error y =>
    if h : x = y then .isTrue (by simp [h]) else .isFalse (by simp [h])
  | .ok x, .ok y =>
    if h : x = y then .isTrue (by simp [h]) else .isFalse (by simp [h])
  | .error _, .ok _ => .isFalse (by simp)
  | .ok _, .error _ => .isFalse (by simp)

/-- Number of records in a parse result. -/
def recordCount : Option (List Tombstone) → Nat
  | none => 0
  | some ts => ts.length

/-- Records in the scanner state, the open one included. -/
def stCount (st : ParseState) : Nat :=
  st.tombstones.length + st.current.toList.length

theorem processLine_count (st st' : ParseState) (l : List Char)
    (h : processLine st l = .ok st') :
    stCount st' = stCount st + (if isAnchorLine l then 1 else 0) := by
  have ha : isAnchorLine l = containsSeqB anchorLit (wrapSplit l).1 := rfl
  simp only [processLine] at h
  cases hA : containsSeqB anchorLit (wrapSplit l).1 with
  | true =>
    rw [hA] at h
    simp only [if_true] at h
    injection h with h
    subst h
    simp [stCount, ha, hA, List.length_append]
  | false =>
    rw [hA] at h
    simp only [Bool.false_eq_true, if_false] at h
    cases hc : st.current with
    | none =>
      rw [hc] at h
      injection h with h
      subst h
      simp [ha, hA]
    | some cur =>
      rw [hc] at h
      cases hw : st.parsing_logcat && !(wrapSplit l).2 with
      | true =>
        rw [hw] at h
        simp only [if_true] at h
        injection h with h
        subst h
        simp [stCount, ha, hA, hc, List.length_append, Option.toList]
      | false =>
        rw [hw] at h
        simp only [Bool.false_eq_true, if_false] at h
        cases hh : handleContent cur st.in_backtrace (wrapSplit l).1 with
        | error e => rw [hh] at h; cases h
        | ok r =>
          rw [hh] at h
          injection h with h
          subst h
          simp [stCount, ha, hA, hc, Option.toList]

theorem runLines_count : ∀ (lines : List (List Char)) (st st' : ParseState),
    runLines st lines = .ok st' →
    stCount st' = stCount st + List.countP (fun l => isAnchorLine l) lines := by
  intro lines
  induction lines with
  | nil =>
    intro st st' h
    simp only [runLines] at h
    injection h with h
    subst h
    simp
  | cons l ls ih =>
    intro st st' h
    simp only [runLines] at h
    cases hp : processLine st l with
    | error e => rw [hp] at h; cases h
    | ok st1 =>
      rw [hp] at h
      have h1 := processLine_count st st1 l hp
      have h2 := ih st1 st' h
      rw [h2, h1, List.countP_cons]
      cases isAnchorLine l
      · simp
      · simp
        omega

theorem processLine_id (st : ParseState) (l : List Char)
    (hc : st.current = none) (ha : isAnchorLine l = false) :
    processLine st l = .ok st := by
  have ha' : containsSeqB anchorLit (wrapSplit l).1 = false := ha
  simp only [processLine, ha', Bool.false_eq_true, if_false, hc]

theorem runLines_noAnchor : ∀ (lines : List (List Char)) (st : ParseState),
    st.current = none →
    List.countP (fun l => isAnchorLine l) lines = 0 →
    runLines st lines = .ok st := by
  intro lines
  induction lines with
  | nil => intro st _ _; rfl
  | cons l ls ih =>
    intro st hc h0
    rw [List.countP_cons] at h0
    have ha : isAnchorLine l = false := by
      cases hA : isAnchorLine l
      · rfl
      · rw [hA] at h0; simp at h0
    have hls : List.countP (fun l => isAnchorLine l) ls = 0 := by
      rw [ha] at h0; simpa using h0
    simp only [runLines, processLine_id st l hc ha]
    exact ih st hc hls

theorem recordCount_finalize (st : ParseState) :
    recordCount (finalize st) = stCount st := by
  simp only [finalize, recordCount, stCount]
  cases h : (st.tombstones ++ st.current.toList).isEmpty with
  | true =>
    simp only [if_true]
    rw [List.isEmpty_iff] at h
    have := congrArg List.length h
    simp only [List.length_append, List.length_nil] at this
    omega
  | false =>
    simp only [Bool.false_eq_true, if_false, List.length_append]

/-- C1: for every completed scan, the number of Crash Records in the
output of parse_tombstones equals the number of lines whose
wrapper-stripped content contains the record-start anchor (a record still
open at end of input is flushed exactly once); with zero anchor
occurrences the scan always completes with the empty result. -/
theorem tombstone_record_count (lines : List (List Char)) :
    (∀ r, parse_tombstones lines = .ok r →
       recordCount r = List.countP (fun l => isAnchorLine l) lines) ∧
    (List.countP (fun l => isAnchorLine l) lines = 0 →
       parse_tombstones lines = .ok none) := by
  constructor
  · intro r h
    simp only [parse_tombstones] at h
    cases hr : runLines ⟨[], none, false, false⟩ lines with
    | error e => rw [hr] at h; cases h
    | ok st' =>
      rw [hr] at h
      simp only [Except.map] at h
      injection h with h
      subst h
      have hcnt := runLines_count lines _ _ hr
      rw [recordCount_finalize, hcnt]
      simp [stCount]
  · intro h0
    have hrun := runLines_noAnchor lines ⟨[], none, false, false⟩ rfl h0
    simp [parse_tombstones, hrun, Except.map, finalize]

/-- Witness for C1 at a one-anchor input and at the empty input. -/
theorem tombstone_record_count_witness :
    recordCount (some [emptyTombstone]) =
      List.countP (fun l => isAnchorLine l) [anchorLit] ∧
    parse_tombstones [] = Except.ok none :=
  ⟨(tombstone_record_count [anchorLit]).1 (some [emptyTombstone]) (by decide),
   (tombstone_record_count []).2 (by decide)⟩

/-- A scanner state with an open record in wrapper mode. -/
def stWrapOpen : ParseState := ⟨[], some emptyTombstone, false, true⟩

/-- A scanner state with an open record not in wrapper mode. -/
def stNoWrap : ParseState := ⟨[], some emptyTombstone, false, false⟩

/-- A logcat-wrapped line whose content is the record-start anchor. -/
def wrapAnchorLine : List Char :=
  ("03-15 12:00:00.000  1234  1234  1234 F DEBUG  : ".data) ++ anchorLit

/-- A logcat-wrapped line with arbitrary field-free content. -/
def wrapFieldLine : List Char :=
  "03-15 12:00:00.000  1234  1234  1234 F DEBUG  : hello".data

/-- C4: with an open wrapper-mode record, a line without the wrapper
prefix (and without the anchor) closes and emits the record unchanged and
is itself discarded; a wrapper-carried anchor-free line keeps the record
open in wrapper mode without emitting; a record opened without the
wrapper prefix is never closed by the wrapper-consistency rule. -/
theorem wrapper_boundary_close (st : ParseState) (cur : Tombstone) (l : List Char) :
    (st.parsing_logcat = true → st.current = some cur → (wrapSplit l).2 = false →
      isAnchorLine l = false →
      processLine st l = .ok { tombstones := st.tombstones ++ [cur], current := none,
                               in_backtrace := false, parsing_logcat := false }) ∧
    (st.parsing_logcat = true → st.current = some cur → (wrapSplit l).2 = true →
      isAnchorLine l = false →
      ∀ st', processLine st l = .ok st' →
        st'.tombstones = st.tombstones ∧ st'.current.isSome = true ∧
        st'.parsing_logcat = true) ∧
    (st.parsing_logcat = false → st.current.isSome = true →
      ∀ st', processLine st l = .ok st' → st'.current.isSome = true) := by
  refine ⟨?_, ?_, ?_⟩
  · intro hp hc hw ha
    have ha' : containsSeqB anchorLit (wrapSplit l).1 = false := ha
    simp only [processLine, ha', Bool.false_eq_true, if_false, hc, hp, hw,
      Bool.not_false, Bool.and_true, if_true]
  · intro hp hc hw ha st' h
    have ha' : containsSeqB anchorLit (wrapSplit l).1 = false := ha
    simp only [processLine, ha', Bool.false_eq_true, if_false, hc, hp, hw,
      Bool.not_true, Bool.and_false] at h
    cases hh : handleContent cur st.in_backtrace (wrapSplit l).1 with
    | error e => rw [hh] at h; cases h
    | ok r =>
      rw [hh] at h
      injection h with h
      subst h
      exact ⟨rfl, rfl, rfl⟩
  · intro hp hs st' h
    simp only [processLine] at h
    cases hA : containsSeqB anchorLit (wrapSplit l).1 with
    | true =>
      rw [hA] at h
      simp only [if_true] at h
      injection h with h
      subst h
      rfl
    | false =>
      rw [hA] at h
      simp only [Bool.false_eq_true, if_false] at h
      cases hc : st.current with
      | none => rw [hc] at hs; simp at hs
      | some cur2 =>
        rw [hc, hp] at h
        simp only [Bool.false_and, Bool.false_eq_true, if_false] at h
        cases hh : handleContent cur2 st.in_backtrace (wrapSplit l).1 with
        | error e => rw [hh] at h; cases h
        | ok r =>
          rw [hh] at h
          injection h with h
          subst h
          rfl

/-- Witness for C4: the three parts at concrete states and lines. -/
theorem wrapper_boundary_close_witness :
    (processLine stWrapOpen ("plain".data) =
      .ok { tombstones := [emptyTombstone]
            current := none
            in_backtrace := false
            parsing_logcat := false }) ∧
    (stWrapOpen.tombstones = stWrapOpen.tombstones ∧
      stWrapOpen.current.isSome = true ∧ stWrapOpen.parsing_logcat = true) ∧
    stNoWrap.current.isSome = true :=
  ⟨(wrapper_boundary_close stWrapOpen emptyTombstone ("plain".data)).1
      rfl rfl (by decide) (by decide),
   (wrapper_boundary_close stWrapOpen emptyTombstone wrapFieldLine).2.1
      rfl rfl (by decide) (by decide) stWrapOpen (by decide),
   (wrapper_boundary_close stNoWrap emptyTombstone ("plain".data)).2.2
      rfl rfl stNoWrap (by decide)⟩

/-- C6 counterexample: an unwrapped line that is exactly the anchor,
immediately after the wrapped lines of a wrapper-mode record, opens a
second Crash Record (the claim predicts a single record). -/
theorem unwrapped_anchor_opens_record :
    (wrapSplit wrapAnchorLine).2 = true ∧
    (wrapSplit anchorLit).2 = false ∧
    isAnchorLine anchorLit = true ∧
    parse_tombstones [wrapAnchorLine, wrapFieldLine, anchorLit] =
      .ok (some [emptyTombstone, emptyTombstone]) :=
  ⟨by decide, by decide, by decide, by decide⟩

/-- C6 amended: the anchor test precedes the wrapper-consistency test, so
an unwrapped anchor-bearing line after a wrapper-mode record closes and
emits that record and opens a new record (in non-wrapper mode); only
anchor-free unwrapped lines are discarded without opening a record. -/
theorem anchor_test_precedes_wrapper_close (st : ParseState) (cur : Tombstone)
    (l : List Char) (_hp : st.parsing_logcat = true) (hc : st.current = some cur)
    (hw : (wrapSplit l).2 = false) (ha : isAnchorLine l = true) :
    processLine st l =
      .ok { tombstones := st.tombstones ++ [cur]
            current := some emptyTombstone
            in_backtrace := false
            parsing_logcat := false } := by
  have ha' : containsSeqB anchorLit (wrapSplit l).1 = true := ha
  simp only [processLine, ha', if_true, hc, hw, Option.toList_some]

/-- Witness for the amended C6 at a concrete state and line. -/
theorem anchor_test_precedes_wrapper_close_witness :
    processLine stWrapOpen anchorLit =
      .ok { tombstones := [emptyTombstone]
            current := some emptyTombstone
            in_backtrace := false
            parsing_logcat := false } :=
  anchor_test_precedes_wrapper_close stWrapOpen emptyTombstone anchorLit
    rfl rfl (by decide) (by decide)

/-- C8: a line opening a uid field whose value is not a valid integer
aborts the whole scan (the unchecked conversion raises). -/
theorem uid_malformed_aborts :
    parse_tombstones [anchorLit, ("uid: abc".data)] = .error () := by decide

/-- The round-trip frame line of the specification. -/
def frameLineC2 : List Char :=
  "#00 pc 00000000001de20c /system/lib64/libfoo.so (foo::bar(int)+552) (BuildId: abcdef12)".data

/-- The frame the source actually produces for that line: the lazy
function group stops at the first closing parenthesis, so the function is
truncated and offset and build id are lost. -/
def frC2 : BacktraceFrame :=
  { frame := 0
    pc := "00000000001de20c".data
    library := "/system/lib64/libfoo.so".data
    function := some ("foo::bar(int".data)
    offset := none
    build_id := none
    raw_line := frameLineC2 }

/-- The function-without-offset frame line of the specification. -/
def frameLineC2b : List Char := "#00 pc 1de20c /lib (foo::bar()) (BuildId: ab)".data

/-- The frame the source actually produces for that line: again truncated
at the first closing parenthesis. -/
def frC2b : BacktraceFrame :=
  { frame := 0
    pc := "1de20c".data
    library := "/lib".data
    function := some ("foo::bar(".data)
    offset := none
    build_id := none
    raw_line := frameLineC2b }

/-- C8-style evaluation for C2: on the round-trip line of the
specification the code yields function foo::bar(int with no offset and no
build id, and on the no-offset line it yields function foo::bar( — the
lazy group of the frame pattern stops at the first closing parenthesis,
contradicting the specified round trip. -/
theorem frame_function_truncation :
    parse_tombstones [anchorLit, ("backtrace:".data), frameLineC2] =
      .ok (some [{ emptyTombstone with backtrace := [frC2] }]) ∧
    parse_tombstones [anchorLit, ("backtrace:".data), frameLineC2b] =
      .ok (some [{ emptyTombstone with backtrace := [frC2b] }]) :=
  ⟨by decide, by decide⟩

/-- The parsed frame decoded from a frame shape embedded after leading
text. -/
def frEmbedded : BacktraceFrame :=
  { frame := 5
    pc := "1a2b".data
    library := "/lib/foo.so".data
    raw_line := "garbage text #05 pc 1a2b /lib/foo.so".data }

/-- C10: the frame pattern is applied as a search: a backtrace-section
line whose frame shape occurs only after arbitrary leading text is
decoded as a Parsed frame (index 5, not the raw sentinel). -/
theorem frame_pattern_searched_anywhere :
    parse_tombstones [anchorLit, ("backtrace:".data),
        ("garbage text #05 pc 1a2b /lib/foo.so".data)] =
      .ok (some [{ emptyTombstone with backtrace := [frEmbedded] }]) := by decide

theorem startsWithB_false_of_head_ne {a b : Char} (p q s : List Char)
    (h : startsWithB (a :: p) s = true) (hne : (b == a) = false) :
    startsWithB (b :: q) s = false := by
  cases s with
  | nil => simp [startsWithB] at h
  | cons c cs =>
    simp only [startsWithB, Bool.and_eq_true, beq_iff_eq] at h
    obtain ⟨h1, -⟩ := h
    subst h1
    simp [startsWithB, hne]

theorem afterFields_bt_of_false (c : Tombstone) (content : List Char) :
    (afterFields c false content).1.backtrace = c.backtrace := by
  cases hp : pidTidMatch content with
  | some g => simp [afterFields, hp]
  | none =>
    cases hs : signalMatch content with
    | some g => simp [afterFields, hp, hs]
    | none => simp [afterFields, hp, hs]

theorem afterFields_true_scalars (c : Tombstone) (content : List Char) :
    (afterFields c true content).1.pid = c.pid ∧
    (afterFields c true content).1.tid = c.tid ∧
    (afterFields c true content).1.thread_name = c.thread_name ∧
    (afterFields c true content).1.process_name = c.process_name ∧
    (afterFields c true content).1.signal = c.signal ∧
    (afterFields c true content).1.code = c.code ∧
    (afterFields c true content).1.fault_addr = c.fault_addr := by
  cases hb : btSearch content with
  | some g => simp [afterFields, hb]
  | none =>
    cases hs : startsWithB ("stack:".data) content with
    | true => simp [afterFields, hb, hs]
    | false =>
      cases hn : (stripB content).isEmpty with
      | true => simp [afterFields, hb, hs, hn]
      | false => simp [afterFields, hb, hs, hn]

theorem afterFields_true_raw (c : Tombstone) (content : List Char)
    (hb : btSearch content = none)
    (hs : startsWithB ("stack:".data) content = false)
    (hn : (stripB content).isEmpty = false) :
    afterFields c true content =
      ({ c with backtrace := c.backtrace ++
          [{ frame := -1, pc := [], library := [], raw_line := content }] }, true) := by
  simp [afterFields, hb, hs, hn]

theorem afterFields_backtrace_shape (c : Tombstone) (b : Bool) (content : List Char) :
    (afterFields c b content).1.backtrace = c.backtrace ∨
    (∃ g, btSearch content = some g ∧
      (afterFields c b content).1.backtrace =
        c.backtrace ++ [mkParsedFrame g content]) ∨
    ((stripB content).isEmpty = false ∧
      (afterFields c b content).1.backtrace = c.backtrace ++
        [{ frame := -1, pc := [], library := [], raw_line := content }]) := by
  cases b with
  | false => exact .inl (afterFields_bt_of_false c content)
  | true =>
    cases hb : btSearch content with
    | some g => exact .inr (.inl ⟨g, rfl, by simp [afterFields, hb]⟩)
    | none =>
      cases hs : startsWithB ("stack:".data) content with
      | true => exact .inl (by simp [afterFields, hb, hs])
      | false =>
        cases hn : (stripB content).isEmpty with
        | true => exact .inl (by simp [afterFields, hb, hs, hn])
        | false => exact .inr (.inr ⟨rfl, by simp [afterFields, hb, hs, hn]⟩)

theorem handleContent_cases (cur : Tombstone) (b : Bool) (content : List Char)
    (r : Tombstone × Bool) (h : handleContent cur b content = .ok r) :
    (∃ m : Tombstone, m.backtrace = cur.backtrace ∧ m.pid = cur.pid ∧
      m.tid = cur.tid ∧ m.thread_name = cur.thread_name ∧
      m.process_name = cur.process_name ∧ m.signal = cur.signal ∧
      m.code = cur.code ∧ m.fault_addr = cur.fault_addr ∧
      r = afterFields m b content) ∨
    (startsWithB ("backtrace:".data) content = true ∧ r = (cur, true)) := by
  simp only [handleContent] at h
  split at h
  · injection h with h
    refine .inl ⟨_, ?_, ?_, ?_, ?_, ?_, ?_, ?_, ?_, h.symm⟩ <;> rfl
  · split at h
    · injection h with h
      refine .inl ⟨_, ?_, ?_, ?_, ?_, ?_, ?_, ?_, ?_, h.symm⟩ <;> rfl
    · split at h
      · injection h with h
        refine .inl ⟨_, ?_, ?_, ?_, ?_, ?_, ?_, ?_, ?_, h.symm⟩ <;> rfl
      · split at h
        · injection h with h
          refine .inl ⟨_, ?_, ?_, ?_, ?_, ?_, ?_, ?_, ?_, h.symm⟩ <;> rfl
        · split at h
          · split at h
            · injection h with h
              refine .inl ⟨_, ?_, ?_, ?_, ?_, ?_, ?_, ?_, ?_, h.symm⟩ <;> rfl
            · cases h
          · split at h
            · injection h with h
              refine .inl ⟨_, ?_, ?_, ?_, ?_, ?_, ?_, ?_, ?_, h.symm⟩ <;> rfl
            · split at h
              · injection h with h
                rename_i hbt
                exact .inr ⟨hbt, h.symm⟩
              · injection h with h
                refine .inl ⟨_, ?_, ?_, ?_, ?_, ?_, ?_, ?_, ?_, h.symm⟩ <;> rfl

theorem content_ne_nil_of_strip (content : List Char)
    (h : (stripB content).isEmpty = false) : content ≠ [] := by
  intro he
  subst he
  simp [stripB] at h

/-- The raw frame the source appends for a Timestamp line occurring
inside the backtrace section. -/
def frRawTimestamp : BacktraceFrame :=
  { frame := -1
    pc := []
    library := []
    raw_line := "Timestamp: 2024".data }

/-- C7 counterexample: a Timestamp label line inside the backtrace
section still modifies the timestamp scalar field of the open record
(and is also captured as a raw frame); the label chain is not guarded by
the backtrace flag. -/
theorem backtrace_field_mutation :
    parse_tombstones [anchorLit, ("backtrace:".data), ("Timestamp: 2024".data)] =
      .ok (some [{ emptyTombstone with
                   timestamp := "2024".data
                   backtrace := [frRawTimestamp] }]) ∧
    ("2024".data : List Char) ≠ emptyTombstone.timestamp :=
  ⟨by decide, by decide⟩

/-- C7 amended: while the backtrace section is active, the combined
pid/tid/name and signal patterns are not tested, so pid, tid, thread
name, process name, signal, code and fault address are never modified;
the label-prefixed scalar fields (timestamp, fingerprint, ABI, cmdline,
uid, abort message) can still be modified by label lines inside the
section. -/
theorem backtrace_combined_patterns_skipped (cur cur' : Tombstone) (b' : Bool)
    (content : List Char)
    (h : handleContent cur true content = .ok (cur', b')) :
    cur'.pid = cur.pid ∧ cur'.tid = cur.tid ∧
    cur'.thread_name = cur.thread_name ∧
    cur'.process_name = cur.process_name ∧ cur'.signal = cur.signal ∧
    cur'.code = cur.code ∧ cur'.fault_addr = cur.fault_addr := by
  rcases handleContent_cases cur true content (cur', b') h with
    ⟨m, -, h1, h2, h3, h4, h5, h6, h7, hr⟩ | ⟨-, hr⟩
  · have hs := afterFields_true_scalars m content
    have hc : cur' = (afterFields m true content).1 := congrArg Prod.fst hr
    rw [hc]
    exact ⟨hs.1.trans h1, hs.2.1.trans h2, hs.2.2.1.trans h3,
      hs.2.2.2.1.trans h4, hs.2.2.2.2.1.trans h5, hs.2.2.2.2.2.1.trans h6,
      hs.2.2.2.2.2.2.trans h7⟩
  · have hc : cur' = cur := congrArg Prod.fst hr
    subst hc
    exact ⟨rfl, rfl, rfl, rfl, rfl, rfl, rfl⟩

/-- The raw frame appended for an unparsed line inside the backtrace
section. -/
def frRawHello : BacktraceFrame :=
  { frame := -1
    pc := []
    library := []
    raw_line := "hello x".data }

/-- The record after that unparsed line. -/
def tRawHello : Tombstone := { emptyTombstone with backtrace := [frRawHello] }

/-- Witness for the amended C7 at a concrete record and line. -/
theorem backtrace_combined_patterns_skipped_witness :
    tRawHello.pid = emptyTombstone.pid ∧ tRawHello.tid = emptyTombstone.tid ∧
    tRawHello.thread_name = emptyTombstone.thread_name ∧
    tRawHello.process_name = emptyTombstone.process_name ∧
    tRawHello.signal = emptyTombstone.signal ∧
    tRawHello.code = emptyTombstone.code ∧
    tRawHello.fault_addr = emptyTombstone.fault_addr :=
  backtrace_combined_patterns_skipped emptyTombstone tRawHello true
    ("hello x".data) (by decide)

/-- C3 counterexample: a line starting with the backtrace label, seen
inside the backtrace section, matches neither the frame pattern nor the
stack marker and is non-empty after trimming, yet produces no Raw frame
(the label branch consumes it). -/
theorem raw_frame_backtrace_label_dropped :
    btSearch ("backtrace: again".data) = none ∧
    startsWithB ("stack:".data) ("backtrace: again".data) = false ∧
    (stripB ("backtrace: again".data)).isEmpty = false ∧
    parse_tombstones [anchorLit, ("backtrace:".data), ("backtrace: again".data)] =
      .ok (some [emptyTombstone]) :=
  ⟨by decide, by decide, by decide, by decide⟩

/-- C3 amended: inside the backtrace section, every line that does not
start with the backtrace label, matches neither the frame pattern nor
the stack marker, is non-empty after trimming and does not abort the
parse (malformed uid) is appended as a Raw frame with sentinel index -1
and raw_line the trimmed content; a line empty after trimming leaves
record and state unchanged, producing no frame. -/
theorem raw_frame_capture (cur : Tombstone) (content : List Char)
    (st : ParseState) (l : List Char) :
    (startsWithB ("backtrace:".data) content = false →
      btSearch content = none →
      startsWithB ("stack:".data) content = false →
      (stripB content).isEmpty = false →
      ∀ cur' b', handleContent cur true content = .ok (cur', b') →
        cur'.backtrace = cur.backtrace ++
          [{ frame := -1, pc := [], library := [], raw_line := content }] ∧
        b' = true) ∧
    (st.current = some cur → st.parsing_logcat = false → st.in_backtrace = true →
      (wrapSplit l).1 = [] → processLine st l = .ok st) := by
  constructor
  · intro hbt hb hs hn cur' b' h
    rcases handleContent_cases cur true content (cur', b') h with
      ⟨m, hmb, -, -, -, -, -, -, -, hr⟩ | ⟨hbt2, -⟩
    · rw [afterFields_true_raw m content hb hs hn] at hr
      injection hr with h1 h2
      subst h1
      subst h2
      simp [hmb]
    · rw [hbt2] at hbt
      cases hbt
  · intro hc hp hbt hl
    obtain ⟨ts, c, b, pl⟩ := st
    dsimp only at hc hp hbt
    subst hc
    subst hp
    subst hbt
    have h1 : containsSeqB anchorLit ([] : List Char) = false := by decide
    have h2 : handleContent cur true [] = .ok (cur, true) := rfl
    simp only [processLine, hl, h1, Bool.false_eq_true, if_false,
      Bool.false_and, h2]

/-- An unparsed backtrace line. -/
def contentCause : List Char := "Cause: null pointer dereference".data

/-- The raw frame preserved for it. -/
def frRawCause : BacktraceFrame :=
  { frame := -1
    pc := []
    library := []
    raw_line := contentCause }

/-- The record after that line. -/
def tRawCause : Tombstone := { emptyTombstone with backtrace := [frRawCause] }

/-- A scanner state with an open record inside the backtrace section. -/
def stBtOpen : ParseState := ⟨[], some emptyTombstone, true, false⟩

/-- Witness for the amended C3: the Cause line is preserved as a Raw
frame, and an all-whitespace line leaves the state unchanged. -/
theorem raw_frame_capture_witness :
    (tRawCause.backtrace = emptyTombstone.backtrace ++ [frRawCause] ∧
      true = true) ∧
    processLine stBtOpen ("   ".data) = .ok stBtOpen :=
  ⟨(raw_frame_capture emptyTombstone contentCause stBtOpen ("   ".data)).1
      (by decide) (by decide) (by decide) (by decide) tRawCause true (by decide),
   (raw_frame_capture emptyTombstone contentCause stBtOpen ("   ".data)).2
      rfl rfl rfl (by decide)⟩

/-- C5: a stack-prefixed line inside the backtrace section that does not
match the frame pattern closes the section with no frame and an
unchanged record; the frame pattern is tried first, so a stack-prefixed
line matching the frame shape is decoded as a Parsed frame with the
section left active; and outside the backtrace section no line ever
appends a frame. -/
theorem stack_marker_priority (cur : Tombstone) (content : List Char) :
    (startsWithB ("stack:".data) content = true → btSearch content = none →
      handleContent cur true content = .ok (cur, false)) ∧
    (∀ g, startsWithB ("stack:".data) content = true →
      btSearch content = some g →
      handleContent cur true content =
        .ok ({ cur with
               backtrace := cur.backtrace ++ [mkParsedFrame g content] }, true)) ∧
    (∀ cur' b', handleContent cur false content = .ok (cur', b') →
      cur'.backtrace = cur.backtrace) := by
  refine ⟨?_, ?_, ?_⟩
  · intro hs hb
    have hT : startsWithB ("Timestamp:".data) content = false :=
      startsWithB_false_of_head_ne _ _ _ hs (by decide)
    have hBf : startsWithB ("Build fingerprint:".data) content = false :=
      startsWithB_false_of_head_ne _ _ _ hs (by decide)
    have hAb2 : startsWithB ("ABI:".data) content = false :=
      startsWithB_false_of_head_ne _ _ _ hs (by decide)
    have hCm : startsWithB ("Cmdline:".data) content = false :=
      startsWithB_false_of_head_ne _ _ _ hs (by decide)
    have hU : startsWithB ("uid:".data) content = false :=
      startsWithB_false_of_head_ne _ _ _ hs (by decide)
    have hAm : startsWithB ("Abort message:".data) content = false :=
      startsWithB_false_of_head_ne _ _ _ hs (by decide)
    have hBt : startsWithB ("backtrace:".data) content = false :=
      startsWithB_false_of_head_ne _ _ _ hs (by decide)
    simp only [handleContent, hT, hBf, hAb2, hCm, hU, hAm, hBt,
      Bool.false_eq_true, if_false]
    simp [afterFields, hb, hs]
  · intro g hs hb
    have hT : startsWithB ("Timestamp:".data) content = false :=
      startsWithB_false_of_head_ne _ _ _ hs (by decide)
    have hBf : startsWithB ("Build fingerprint:".data) content = false :=
      startsWithB_false_of_head_ne _ _ _ hs (by decide)
    have hAb2 : startsWithB ("ABI:".data) content = false :=
      startsWithB_false_of_head_ne _ _ _ hs (by decide)
    have hCm : startsWithB ("Cmdline:".data) content = false :=
      startsWithB_false_of_head_ne _ _ _ hs (by decide)
    have hU : startsWithB ("uid:".data) content = false :=
      startsWithB_false_of_head_ne _ _ _ hs (by decide)
    have hAm : startsWithB ("Abort message:".data) content = false :=
      startsWithB_false_of_head_ne _ _ _ hs (by decide)
    have hBt : startsWithB ("backtrace:".data) content = false :=
      startsWithB_false_of_head_ne _ _ _ hs (by decide)
    simp only [handleContent, hT, hBf, hAb2, hCm, hU, hAm, hBt,
      Bool.false_eq_true, if_false]
    simp [afterFields, hb]
  · intro cur' b' h
    rcases handleContent_cases cur false content (cur', b') h with
      ⟨m, hmb, -, -, -, -, -, -, -, hr⟩ | ⟨-, hr⟩
    · have h1 : cur' = (afterFields m false content).1 := congrArg Prod.fst hr
      rw [h1, afterFields_bt_of_false, hmb]
    · have h1 : cur' = cur := congrArg Prod.fst hr
      rw [h1]

/-- A stack-prefixed line that also matches the frame shape. -/
def stackFrameLine : List Char := "stack: #00 pc ab /l".data

/-- The groups the frame pattern finds inside it. -/
def stackFrameGroups : BtGroups :=
  { idx := 0
    pc := "ab".data
    lib := "/l".data
    fn := none
    bid := none }

/-- The record produced by a pid line outside the backtrace section. -/
def tPidOnly : Tombstone :=
  { emptyTombstone with
    pid := 1
    tid := 2
    thread_name := "a".data
    process_name := "b".data }

/-- Witness for C5 at concrete lines: a plain stack marker, a
stack-prefixed frame line, and a pid line outside the section. -/
theorem stack_marker_priority_witness :
    handleContent emptyTombstone true ("stack: done".data) =
      .ok (emptyTombstone, false) ∧
    handleContent emptyTombstone true stackFrameLine =
      .ok ({ emptyTombstone with
             backtrace := [mkParsedFrame stackFrameGroups stackFrameLine] },
           true) ∧
    tPidOnly.backtrace = emptyTombstone.backtrace :=
  ⟨(stack_marker_priority emptyTombstone ("stack: done".data)).1
      (by decide) (by decide),
   (stack_marker_priority emptyTombstone stackFrameLine).2.1 stackFrameGroups
      (by decide) (by decide),
   (stack_marker_priority emptyTombstone
      ("pid: 1, tid: 2, name: a  >>> b <<<".data)).2.2 tPidOnly false (by decide)⟩

/-- The per-frame invariant: either the raw-frame shape (sentinel index,
empty pc and library, non-empty raw text) or a non-negative parsed
index. -/
def goodFrame (f : BacktraceFrame) : Prop :=
  (f.frame = -1 ∧ f.pc = [] ∧ f.library = [] ∧ f.raw_line ≠ []) ∨ 0 ≤ f.frame

theorem mkParsedFrame_good (g : BtGroups) (content : List Char) :
    goodFrame (mkParsedFrame g content) := by
  right
  have h : (mkParsedFrame g content).frame = Int.ofNat g.idx := rfl
  rw [h]
  exact Int.ofNat_nonneg g.idx

theorem handleContent_frames (cur : Tombstone) (b : Bool) (content : List Char)
    (r : Tombstone × Bool) (h : handleContent cur b content = .ok r)
    (f : BacktraceFrame) (hf : f ∈ r.1.backtrace) :
    f ∈ cur.backtrace ∨ goodFrame f := by
  rcases handleContent_cases cur b content r h with
    ⟨m, hmb, -, -, -, -, -, -, -, hr⟩ | ⟨-, hr⟩
  · rw [hr] at hf
    rcases afterFields_backtrace_shape m b content with h1 | ⟨g, -, h1⟩ | ⟨hne, h1⟩
    · rw [h1, hmb] at hf
      exact .inl hf
    · rw [h1, hmb] at hf
      rcases List.mem_append.mp hf with h2 | h2
      · exact .inl h2
      · have h3 : f = mkParsedFrame g content := by simpa using h2
        rw [h3]
        exact .inr (mkParsedFrame_good g content)
    · rw [h1, hmb] at hf
      rcases List.mem_append.mp hf with h2 | h2
      · exact .inl h2
      · have h3 : f = ({ frame := -1, pc := [], library := [], raw_line := content } : BacktraceFrame) := by
          simpa using h2
        rw [h3]
        exact .inr (.inl ⟨rfl, rfl, rfl, content_ne_nil_of_strip content hne⟩)
  · rw [hr] at hf
    exact .inl hf

/-- The frame invariant over the whole scanner state. -/
def framesGood (st : ParseState) : Prop :=
  (∀ t ∈ st.tombstones, ∀ f ∈ t.backtrace, goodFrame f) ∧
  (∀ c, st.current = some c → ∀ f ∈ c.backtrace, goodFrame f)

theorem processLine_framesGood (st st' : ParseState) (l : List Char)
    (hg : framesGood st) (h : processLine st l = .ok st') : framesGood st' := by
  obtain ⟨hg1, hg2⟩ := hg
  simp only [processLine] at h
  cases hA : containsSeqB anchorLit (wrapSplit l).1 with
  | true =>
    rw [hA] at h
    simp only [if_true] at h
    injection h with h
    subst h
    constructor
    · intro t ht
      rcases List.mem_append.mp ht with h1 | h1
      · exact hg1 t h1
      · cases hc : st.current with
        | none => rw [hc] at h1; cases h1
        | some c =>
          rw [hc] at h1
          have h2 : t = c := by simpa using h1
          subst h2
          exact hg2 t hc
    · intro c hc f hf
      injection hc with hc
      rw [← hc] at hf
      cases hf
  | false =>
    rw [hA] at h
    simp only [Bool.false_eq_true, if_false] at h
    cases hc : st.current with
    | none =>
      rw [hc] at h
      injection h with h
      subst h
      exact ⟨hg1, hg2⟩
    | some cur =>
      rw [hc] at h
      cases hw : st.parsing_logcat && !(wrapSplit l).2 with
      | true =>
        rw [hw] at h
        simp only [if_true] at h
        injection h with h
        subst h
        constructor
        · intro t ht
          rcases List.mem_append.mp ht with h1 | h1
          · exact hg1 t h1
          · have h2 : t = cur := by simpa using h1
            subst h2
            exact hg2 t hc
        · intro c hcc
          cases hcc
      | false =>
        rw [hw] at h
        simp only [Bool.false_eq_true, if_false] at h
        cases hh : handleContent cur st.in_backtrace (wrapSplit l).1 with
        | error e => rw [hh] at h; cases h
        | ok r =>
          rw [hh] at h
          injection h with h
          subst h
          constructor
          · exact hg1
          · intro c hcc f hf
            injection hcc with hcc
            rw [← hcc] at hf
            rcases handleContent_frames cur st.in_backtrace (wrapSplit l).1 r hh
                f hf with h1 | h1
            · exact hg2 cur hc f h1
            · exact h1

theorem runLines_framesGood : ∀ (lines : List (List Char)) (st st' : ParseState),
    framesGood st → runLines st lines = .ok st' → framesGood st' := by
  intro lines
  induction lines with
  | nil =>
    intro st st' hg h
    injection h with h
    subst h
    exact hg
  | cons l ls ih =>
    intro st st' hg h
    simp only [runLines] at h
    cases hp : processLine st l with
    | error e => rw [hp] at h; cases h
    | ok st1 =>
      rw [hp] at h
      exact ih st1 st' (processLine_framesGood st st1 l hg hp) h

/-- C9: in every record returned by parse_tombstones, every frame is
either a Raw frame (index exactly -1, empty pc and library, non-empty
raw_line) or a Parsed frame with a non-negative index; the sentinel
never collides with a parsed index. -/
theorem frame_sentinel_invariant (lines : List (List Char))
    (ts : List Tombstone) (h : parse_tombstones lines = .ok (some ts)) :
    ∀ t ∈ ts, ∀ f ∈ t.backtrace, goodFrame f := by
  simp only [parse_tombstones] at h
  cases hr : runLines ⟨[], none, false, false⟩ lines with
  | error e => rw [hr] at h; cases h
  | ok st' =>
    rw [hr] at h
    simp only [Except.map] at h
    injection h with h
    have hgood := runLines_framesGood lines ⟨[], none, false, false⟩ st'
      ⟨fun t ht => absurd ht (List.not_mem_nil t), fun c hc => by cases hc⟩ hr
    simp only [finalize] at h
    split at h
    · cases h
    · injection h with h
      subst h
      intro t ht f hf
      rcases List.mem_append.mp ht with h1 | h1
      · exact hgood.1 t h1 f hf
      · cases hcur : st'.current with
        | none => rw [hcur] at h1; cases h1
        | some c =>
          rw [hcur] at h1
          have h2 : t = c := by simpa using h1
          subst h2
          exact hgood.2 t hcur f hf

/-- Witness for C9: the raw frame preserved for the Cause line of a
concrete parse satisfies the invariant. -/
theorem frame_sentinel_invariant_witness : goodFrame frRawCause :=
  frame_sentinel_invariant [anchorLit, ("backtrace:".data), contentCause]
    [tRawCause] (by decide) tRawCause (by simp) frRawCause (by simp [tRawCause])
